import Mathlib

/-!
Shallow embedding of the validation/scoring orchestration pipeline of the
sign-language practice game (TypeScript sources under `src/`), together with
theorems settling the specification claims about it.

Conventions of the embedding:
* JavaScript numbers are modelled as `ℚ` (all arithmetic in the embedded code
  is exact on the inputs considered; `Math.round x` is `⌊x + 1/2⌋`).
* JavaScript strings are `String`/`List Char` (`toLowerCase` is modelled on
  the ASCII range, which is the range the normalizer's `[a-z]` filter keeps).
* `null`/`undefined` become `Option`; a JS object field that may be absent is
  an `Option` field.
* Model calls are I/O; graph/agent runs are embedded as pure functions taking
  the outcome of each model call as an explicit argument.
-/

namespace SignGame

/-! ## Normalizer (`src/lib/utils/normalize.ts`, `normalizePracticeWord`) -/

/-- ASCII model of `String.prototype.toLowerCase` applied to one character:
code points 65–90 (`A`–`Z`) are shifted to 97–122, everything else is kept. -/
def jsToLower (c : Char) : Char :=
  if 65 ≤ c.toNat ∧ c.toNat ≤ 90 then Char.ofNat (c.toNat + 32) else c

/-- The regex test `/[a-z]/.test(c)`: code point in 97–122. -/
def isAsciiLowerAlpha (c : Char) : Bool :=
  decide (97 ≤ c.toNat ∧ c.toNat ≤ 122)

/-- Model of `normalizePracticeWord`: lowercase, split to characters, keep only `[a-z]`,
rejoin. -/
def normalizePracticeWord (word : String) : String :=
  String.mk ((word.toList.map jsToLower).filter isAsciiLowerAlpha)

/-! ## Deterministic scoring (`src/lib/graph/validation-graph.ts`,
`ValidationGraph.computeDeterministicScore`, consolidated variant) -/

/-- Model of `Math.round` on exact rationals: round half toward positive infinity. -/
def jsRound (x : ℚ) : ℤ := ⌊x + 1 / 2⌋

/-- One element of the validation output's `letterByLetterMatch` array. -/
structure LetterMatch where
  expected : String
  detected : Option String
  matched : Bool
deriving DecidableEq

/-- Model of `ValidationOutput` (`src/lib/schemas/agent-outputs.ts`). -/
structure ValidationOutput where
  isValid : Bool
  matchPercentage : ℚ
  letterByLetterMatch : Option (List LetterMatch)
  reasoning : String
deriving DecidableEq

/-- The `breakdown` object of `ScoringOutput`. -/
structure ScoreBreakdown where
  accuracy : ℚ
  speed : ℚ
  clarity : ℚ
deriving DecidableEq

/-- Model of `ScoringOutput` (`src/lib/schemas/agent-outputs.ts`). -/
structure ScoringOutput where
  score : ℚ
  breakdown : ScoreBreakdown
  reasoning : String
deriving DecidableEq

/-- Model of `ValidationGraph.computeDeterministicScore` (consolidated variant):
accuracy = round(matchPercentage); speed is the duration step function;
clarity = min(100, max(30, round(matchPercentage*0.8 + 20)));
score = round(accuracy*0.6 + speed*0.2 + clarity*0.2). -/
def computeDeterministicScore (validation : ValidationOutput) (durationMs : ℚ) :
    ScoringOutput :=
  let accuracy : ℚ := (jsRound validation.matchPercentage : ℚ)
  let seconds : ℚ := durationMs / 1000
  let speed : ℚ :=
    if seconds ≥ 10 then 40 else if seconds ≥ 5 then 60
    else if seconds ≥ 2 then 80 else 100
  let clarity : ℚ :=
    min 100 (max 30 ((jsRound (validation.matchPercentage * (8 / 10) + 20) : ℚ)))
  let score : ℚ := (jsRound (accuracy * (6 / 10) + speed * (2 / 10) + clarity * (2 / 10)) : ℚ)
  { score := score
    breakdown := { accuracy := accuracy, speed := speed, clarity := clarity }
    reasoning :=
      s!"Deterministic scoring: accuracy={accuracy}, speed={speed}, clarity={clarity}. " ++
      s!"Weighted score={score}." }

/-! ## Announcement scenario classifier (`src/lib/graph/announcement-graph.ts`,
`AnnouncementGraph.getScenario`) -/

/-- Model of `AnnouncementScenario` (`src/lib/schemas/agent-outputs.ts`). -/
inductive AnnouncementScenario where
  | crash
  | delayed
  | safe
deriving DecidableEq

/-- Model of `AnnouncementGraph.getScenario`: crash if the transcription contains the
`?` marker or the match is below 30, else safe at 100 or above, else delayed.
(`transcription.includes('?')` is membership of the single character `?`.) -/
def getScenario (transcription : String) (matchPct : ℚ) : AnnouncementScenario :=
  if transcription.toList.contains '?' ∨ matchPct < 30 then .crash
  else if matchPct ≥ 100 then .safe
  else .delayed

/-! ## Cost tracking (`src/lib/schemas/cost-tracking.ts`) -/

/-- Model of `LLMInferenceMetadata`: one REST model-call record. -/
structure LLMInferenceMetadata where
  inputTokens : ℚ
  outputTokens : ℚ
  cost : ℚ
  model : String
  timestamp : String
  latencyMs : ℚ
  agentName : String
deriving DecidableEq

/-- Model of `StreamingCostMetadata`: one Live-API streaming-estimate record. -/
structure StreamingCostMetadata where
  model : String
  sessionDurationMs : ℚ
  estimatedInputTokens : ℚ
  estimatedOutputTokens : ℚ
  estimatedCost : ℚ
  frameCount : ℚ
  transcriptionCount : ℚ
deriving DecidableEq

/-- A value of the session's cost ledger (`costTracking: Record<string, any>`):
either a model-call metadata record or a streaming-estimate record. -/
inductive CostEntry where
  | llm (meta : LLMInferenceMetadata)
  | streaming (meta : StreamingCostMetadata)
deriving DecidableEq

/-- The dynamic access `m.cost` in `aggregateCosts`: `none` means the JS object
has no `cost` field (streaming-estimate records carry `estimatedCost` instead). -/
def CostEntry.costField : CostEntry → Option ℚ
  | .llm m => some m.cost
  | .streaming _ => none

/-- The dynamic access `m.inputTokens` in `aggregateCosts`. -/
def CostEntry.inputTokensField : CostEntry → Option ℚ
  | .llm m => some m.inputTokens
  | .streaming _ => none

/-- The dynamic access `m.outputTokens` in `aggregateCosts`. -/
def CostEntry.outputTokensField : CostEntry → Option ℚ
  | .llm m => some m.outputTokens
  | .streaming _ => none

/-! ## Game session state (`src/lib/schemas/game-session.ts`) -/

/-- Model of `SessionStatusSchema`. -/
inductive SessionStatus where
  | initialized
  | connecting
  | streaming
  | recognizing
  | validating
  | complete
  | error
deriving DecidableEq

/-- Model of `TranscriptionEventSchema`. -/
structure TranscriptionEvent where
  timestamp : ℚ
  text : String
  isFinal : Bool
  tokenCount : Option ℚ
deriving DecidableEq

/-- Model of `FeedbackOutput` (`src/lib/schemas/agent-outputs.ts`); the session state
stores feedback payloads as `z.any()`, and no claim inspects their fields. -/
structure FeedbackOutput where
  feedback : String
  suggestions : List String
  encouragement : String
  nextChallenge : Option String
deriving DecidableEq

/-- Model of `GameSessionStateSchema`: the mutable session record threaded through the
pipeline. The cost ledger keeps the key/value pairs in JS object order. -/
structure GameSessionState where
  sessionId : String
  createdAt : String
  lineId : String
  wordId : String
  expectedWord : String
  level : ℕ
  status : SessionStatus
  transcriptionEvents : List TranscriptionEvent
  finalTranscription : Option String
  streamStartedAt : Option ℚ
  streamEndedAt : Option ℚ
  durationMs : ℚ
  validationResult : Option ValidationOutput
  scoringResult : Option ScoringOutput
  feedbackResult : Option FeedbackOutput
  score : Option ℚ
  costTracking : List (String × CostEntry)
  totalCost : ℚ
  totalInputTokens : ℚ
  totalOutputTokens : ℚ
  error : Option String
  outputDir : Option String
deriving DecidableEq

/-- JS object assignment `obj[key] = v`: overwrite in place when the key
exists, otherwise append. -/
def recordSet (ledger : List (String × CostEntry)) (key : String) (v : CostEntry) :
    List (String × CostEntry) :=
  if ledger.any (fun p => p.1 == key) then
    ledger.map (fun p => if p.1 == key then (key, v) else p)
  else ledger ++ [(key, v)]

/-! ## Agent result envelope (`src/lib/agents/base-agent.ts`, `AgentResult`) -/

/-- The `error` object of an `AgentResult`. -/
structure AgentError where
  message : String
  code : Option String
deriving DecidableEq

/-- Model of `AgentResult<T>`: the uniform envelope every agent run returns. -/
structure AgentResult (α : Type) where
  ok : Bool
  content : Option α
  error : Option AgentError
  metadata : LLMInferenceMetadata
deriving DecidableEq

/-- Output of the consolidated Validation+Feedback agent: one JSON payload
holding the validation object and a feedback object
(`ValidationFeedbackOutput`, used as `content.validation` / `content.feedback`
in `src/lib/graph/validation-graph.ts`). -/
structure ValidationFeedbackContent where
  validation : ValidationOutput
  feedback : FeedbackOutput
deriving DecidableEq

/-! ## Validation graph (`src/lib/graph/validation-graph.ts`) -/

/-- The guard `if (!state.finalTranscription)`: JS falsiness of
`string | null` — `null` and the empty string are falsy. -/
def guardEmptyTranscription : Option String → Bool
  | none => true
  | some t => t == ""

/-- One iteration of the `aggregateCosts` loop: when the entry's `cost` field
is defined, add its cost and its (`?? 0`-defaulted) token counts to the three
running totals; otherwise skip the entry. -/
def aggregateStep (acc : ℚ × ℚ × ℚ) (p : String × CostEntry) : ℚ × ℚ × ℚ :=
  match p.2.costField with
  | some c =>
      (acc.1 + c, acc.2.1 + (p.2.inputTokensField.getD 0),
        acc.2.2 + (p.2.outputTokensField.getD 0))
  | none => acc

/-- Model of `ValidationGraph.aggregateCosts`: reset the three totals to zero and
re-sum over every ledger value, adding only the entries whose `cost` field is
defined (`m.cost !== undefined`), with token counts defaulted to 0. -/
def aggregateCosts (state : GameSessionState) : GameSessionState :=
  let totals : ℚ × ℚ × ℚ := state.costTracking.foldl aggregateStep (0, 0, 0)
  { state with
    totalCost := totals.1
    totalInputTokens := totals.2.1
    totalOutputTokens := totals.2.2 }

/-- Model of `ValidationGraph.run`, consolidated variant (validation+feedback in one
model call, then deterministic scoring). The outcome of the single model call
is passed in as `validationResult`; every other step of the source is pure and
is translated directly. -/
def runConsolidated (state : GameSessionState)
    (validationResult : AgentResult ValidationFeedbackContent) : GameSessionState :=
  if guardEmptyTranscription state.finalTranscription then
    { state with error := some "No transcription to validate", status := .error }
  else
    let state1 := { state with status := .validating }
    let state2 := { state1 with
      costTracking :=
        recordSet state1.costTracking "validation_feedback_0" (.llm validationResult.metadata) }
    match validationResult.ok, validationResult.content with
    | true, some content =>
        let state3 := { state2 with
          validationResult := some content.validation
          feedbackResult := some content.feedback }
        let scoringResult := computeDeterministicScore content.validation state3.durationMs
        let state4 := { state3 with
          scoringResult := some scoringResult
          score := some scoringResult.score }
        aggregateCosts { state4 with status := .complete }
    | _, _ =>
        { state2 with
          error := some (match validationResult.error with
            | some e => e.message
            | none => "Validation/feedback agent failed")
          status := .error }

/-- Model of `ValidationGraph.run`, 3-agent variant (validation, then scoring with a
match-percentage fallback, then optional feedback). The outcomes of the three
model calls are passed in as arguments. -/
def runThreeAgent (state : GameSessionState)
    (validationResult : AgentResult ValidationOutput)
    (scoringResult : AgentResult ScoringOutput)
    (feedbackResult : AgentResult FeedbackOutput) : GameSessionState :=
  if guardEmptyTranscription state.finalTranscription then
    { state with error := some "No transcription to validate", status := .error }
  else
    let state1 := { state with status := .validating }
    let state2 := { state1 with
      costTracking :=
        recordSet state1.costTracking "validation_0" (.llm validationResult.metadata) }
    match validationResult.ok, validationResult.content with
    | true, some validationContent =>
        let state3 := { state2 with validationResult := some validationContent }
        let state4 := { state3 with
          costTracking :=
            recordSet state3.costTracking "scoring_0" (.llm scoringResult.metadata) }
        let state5 :=
          match scoringResult.ok, scoringResult.content with
          | true, some scoringContent =>
              { state4 with
                scoringResult := some scoringContent
                score := some scoringContent.score }
          | _, _ => { state4 with score := some validationContent.matchPercentage }
        let state6 := { state5 with
          costTracking :=
            recordSet state5.costTracking "feedback_0" (.llm feedbackResult.metadata) }
        let state7 :=
          match feedbackResult.ok, feedbackResult.content with
          | true, some feedbackContent => { state6 with feedbackResult := some feedbackContent }
          | _, _ => state6
        aggregateCosts { state7 with status := .complete }
    | _, _ =>
        { state2 with
          error := some (match validationResult.error with
            | some e => e.message
            | none => "Validation agent failed")
          status := .error }

/-! ## JSON extraction and parsing (`src/lib/agents/base-agent.ts`)

The base agent extracts a JSON candidate with `text.match(/\x7b[\s\S]*\x7d/)`
and feeds it to `JSON.parse`, then to the agent's schema.  The regex is
greedy: the (unique, leftmost-longest) match runs from the first opening brace
of the text to the last closing brace, provided the latter comes after the
former. -/

/-- The opening-brace character. -/
def lbrace : Char := Char.ofNat 123

/-- The closing-brace character. -/
def rbrace : Char := Char.ofNat 125

/-- Model of `text.match(/\x7b[\s\S]*\x7d/)`: the substring from the first opening
brace to the last closing brace, `none` when no such span exists. -/
def extractJson (cs : List Char) : Option (List Char) :=
  let t := cs.dropWhile (fun c => !(c == lbrace))
  let r := t.reverse.dropWhile (fun c => !(c == rbrace))
  if r.isEmpty then none else some r.reverse

/-- Parsed JSON values (the result of `JSON.parse`). -/
inductive JsonValue where
  | null
  | bool (b : Bool)
  | num (q : ℚ)
  | str (s : List Char)
  | arr (elems : List JsonValue)
  | obj (fields : List (List Char × JsonValue))

/-- JSON whitespace. -/
def isJsonWs (c : Char) : Bool :=
  c == ' ' || c == '\t' || c == '\n' || c == '\r'

/-- Skip JSON whitespace. -/
def skipWs (cs : List Char) : List Char := cs.dropWhile isJsonWs

/-- Hexadecimal digit value, for `\uXXXX` escapes. -/
def hexVal (c : Char) : Option Nat :=
  if 48 ≤ c.toNat ∧ c.toNat ≤ 57 then some (c.toNat - 48)
  else if 97 ≤ c.toNat ∧ c.toNat ≤ 102 then some (c.toNat - 87)
  else if 65 ≤ c.toNat ∧ c.toNat ≤ 70 then some (c.toNat - 55)
  else none

/-- Decimal digit value. -/
def digitVal (c : Char) : Option Nat :=
  if 48 ≤ c.toNat ∧ c.toNat ≤ 57 then some (c.toNat - 48) else none

/-- Is `c` a decimal digit. -/
def isDigitChar (c : Char) : Bool := 48 ≤ c.toNat && c.toNat ≤ 57

/-- Fold a digit run into a natural number. -/
def digitsToNat (ds : List Char) : ℕ :=
  ds.foldl (fun n c => n * 10 + (c.toNat - 48)) 0

/-- Parse the body of a JSON string after the opening quote, decoding the
escape sequences of the JSON grammar; returns the decoded characters and the
input after the closing quote.  `fuel` dominates the input length. -/
def parseStringBody : ℕ → List Char → Option (List Char × List Char)
  | 0, _ => none
  | _, [] => none
  | fuel + 1, c :: rest =>
    if c == '"' then some ([], rest)
    else if c == '\\' then
      match rest with
      | [] => none
      | e :: rest2 =>
        if e == '"' then (parseStringBody fuel rest2).map (fun p => ('"' :: p.1, p.2))
        else if e == '\\' then (parseStringBody fuel rest2).map (fun p => ('\\' :: p.1, p.2))
        else if e == '/' then (parseStringBody fuel rest2).map (fun p => ('/' :: p.1, p.2))
        else if e == 'b' then
          (parseStringBody fuel rest2).map (fun p => (Char.ofNat 8 :: p.1, p.2))
        else if e == 'f' then
          (parseStringBody fuel rest2).map (fun p => (Char.ofNat 12 :: p.1, p.2))
        else if e == 'n' then (parseStringBody fuel rest2).map (fun p => ('\n' :: p.1, p.2))
        else if e == 'r' then (parseStringBody fuel rest2).map (fun p => ('\r' :: p.1, p.2))
        else if e == 't' then (parseStringBody fuel rest2).map (fun p => ('\t' :: p.1, p.2))
        else if e == 'u' then
          match rest2 with
          | h1 :: h2 :: h3 :: h4 :: rest3 =>
            match hexVal h1, hexVal h2, hexVal h3, hexVal h4 with
            | some a, some b, some c2, some d =>
              (parseStringBody fuel rest3).map
                (fun p => (Char.ofNat (((a * 16 + b) * 16 + c2) * 16 + d) :: p.1, p.2))
            | _, _, _, _ => none
          | _ => none
        else none
    else if c.toNat < 32 then none
    else (parseStringBody fuel rest).map (fun p => (c :: p.1, p.2))

/-- Parse a JSON number (`-? int frac? exp?`), returning its exact value. -/
def parseNumber (cs : List Char) : Option (ℚ × List Char) :=
  let (negSign, cs1) :=
    match cs with
    | c :: rest => if c == '-' then (true, rest) else (false, cs)
    | [] => (false, cs)
  let intDigits := cs1.takeWhile isDigitChar
  let rest1 := cs1.dropWhile isDigitChar
  if intDigits.isEmpty then none
  else if intDigits.length > 1 ∧ intDigits.headD '0' == '0' then none
  else
    let intPart : ℚ := (digitsToNat intDigits : ℚ)
    let (fracVal, rest2) :=
      match rest1 with
      | c :: r1 =>
        if c == '.' then
          let fracDigits := r1.takeWhile isDigitChar
          let r2 := r1.dropWhile isDigitChar
          if fracDigits.isEmpty then (none, rest1)
          else (some ((digitsToNat fracDigits : ℚ) / ((10 : ℚ) ^ fracDigits.length)), r2)
        else (some 0, rest1)
      | [] => (some 0, rest1)
    match fracVal with
    | none => none
    | some frac =>
      let (expVal, rest3) :=
        match rest2 with
        | c :: r1 =>
          if c == 'e' || c == 'E' then
            let (expNeg, r2) :=
              match r1 with
              | s :: r2a =>
                if s == '+' then (false, r2a)
                else if s == '-' then (true, r2a)
                else (false, r1)
              | [] => (false, r1)
            let expDigits := r2.takeWhile isDigitChar
            let r3 := r2.dropWhile isDigitChar
            if expDigits.isEmpty then (none, rest2)
            else
              let e : ℤ :=
                if expNeg then -(digitsToNat expDigits : ℤ) else (digitsToNat expDigits : ℤ)
              (some e, r3)
          else (some 0, rest2)
        | [] => (some 0, rest2)
      match expVal with
      | none => none
      | some e =>
        let magnitude : ℚ := (intPart + frac) * (10 : ℚ) ^ e
        some (if negSign then -magnitude else magnitude, rest3)

/-- Consume a literal keyword. -/
def parseKeyword (kw : List Char) (cs : List Char) : Option (List Char) :=
  if cs.take kw.length == kw then some (cs.drop kw.length) else none

mutual

/-- Parse one JSON value (leading whitespace allowed); returns the value and
the remaining input. -/
def parseValue : ℕ → List Char → Option (JsonValue × List Char)
  | 0, _ => none
  | fuel + 1, cs =>
    match skipWs cs with
    | [] => none
    | c :: rest =>
      if c == 'n' then (parseKeyword ['u', 'l', 'l'] rest).map (fun r => (.null, r))
      else if c == 't' then (parseKeyword ['r', 'u', 'e'] rest).map (fun r => (.bool true, r))
      else if c == 'f' then
        (parseKeyword ['a', 'l', 's', 'e'] rest).map (fun r => (.bool false, r))
      else if c == '"' then
        (parseStringBody rest.length rest).map (fun p => (.str p.1, p.2))
      else if c == lbrace then
        match skipWs rest with
        | c2 :: rest2 =>
          if c2 == rbrace then some (.obj [], rest2)
          else (parseMembers fuel (c2 :: rest2)).map (fun p => (.obj p.1, p.2))
        | [] => none
      else if c == '[' then
        match skipWs rest with
        | c2 :: rest2 =>
          if c2 == ']' then some (.arr [], rest2)
          else (parseElements fuel (c2 :: rest2)).map (fun p => (.arr p.1, p.2))
        | [] => none
      else (parseNumber (c :: rest)).map (fun p => (.num p.1, p.2))

/-- Parse the non-empty member list of a JSON object, consuming the closing
brace. -/
def parseMembers : ℕ → List Char → Option (List (List Char × JsonValue) × List Char)
  | 0, _ => none
  | fuel + 1, cs =>
    match skipWs cs with
    | c :: rest =>
      if c == '"' then
        match parseStringBody rest.length rest with
        | some (key, r1) =>
          (match skipWs r1 with
           | c2 :: r2 =>
             if c2 == ':' then
               match parseValue fuel r2 with
               | some (v, r3) =>
                 (match skipWs r3 with
                  | c3 :: r4 =>
                    if c3 == ',' then
                      (parseMembers fuel r4).map (fun p => ((key, v) :: p.1, p.2))
                    else if c3 == rbrace then some ([(key, v)], r4)
                    else none
                  | [] => none)
               | none => none
             else none
           | [] => none)
        | none => none
      else none
    | [] => none

/-- Parse the non-empty element list of a JSON array, consuming the closing
bracket. -/
def parseElements : ℕ → List Char → Option (List JsonValue × List Char)
  | 0, _ => none
  | fuel + 1, cs =>
    match parseValue fuel cs with
    | some (v, r1) =>
      (match skipWs r1 with
       | c :: r2 =>
         if c == ',' then (parseElements fuel r2).map (fun p => (v :: p.1, p.2))
         else if c == ']' then some ([v], r2)
         else none
       | [] => none)
    | none => none

end

/-- Model of `JSON.parse`: parse one JSON value and require the rest of the input to be
whitespace. -/
def jsonParse (cs : List Char) : Option JsonValue :=
  match parseValue (cs.length + 1) cs with
  | some (v, rest) => if (skipWs rest).isEmpty then some v else none
  | none => none

/-- JS object field lookup after `JSON.parse` builds the object: a duplicated
key keeps its last occurrence. -/
def jsonLookup (fields : List (List Char × JsonValue)) (key : List Char) : Option JsonValue :=
  fields.foldl (fun acc p => if p.1 == key then some p.2 else acc) none

/-! ## Base agent run (`src/lib/agents/base-agent.ts`, `BaseAgent.run`) -/

/-- The `usage` object of a client response; each count may be absent. -/
structure UsageData where
  promptTokenCount : Option ℚ
  candidatesTokenCount : Option ℚ
deriving DecidableEq

/-- Outcome of the one `client.generate` call inside `BaseAgent.run`: either a
completed response (text plus optional usage), or a thrown exception
(transport/auth failure) carrying its message. -/
inductive ClientOutcome where
  | success (text : String) (usage : Option UsageData)
  | thrown (message : String)
deriving DecidableEq

/-- The access `response.usage?.promptTokenCount ?? 0`. -/
def usagePromptTokens (usage : Option UsageData) : ℚ :=
  match usage with
  | some u => u.promptTokenCount.getD 0
  | none => 0

/-- The access `response.usage?.candidatesTokenCount ?? 0`. -/
def usageCandidatesTokens (usage : Option UsageData) : ℚ :=
  match usage with
  | some u => u.candidatesTokenCount.getD 0
  | none => 0

/-- Model of `BaseAgent.run`.  Here `schema` is the concrete agent's
`getOutputSchema().safeParse` (returning `none` on schema-validation failure),
`calcCost` is `client.calculateCost`, and the wall-clock reads
(`latencyMs`, `timestamp`) are passed in.  The log-file side effects carry no
state and are dropped. -/
def baseAgentRun {α : Type} (schema : JsonValue → Option α) (calcCost : ℚ → ℚ → ℚ)
    (modelName timestamp agentName : String) (latencyMs : ℚ)
    (outcome : ClientOutcome) : AgentResult α :=
  match outcome with
  | .thrown msg =>
      { ok := false
        content := none
        error := some { message := msg, code := none }
        metadata := { inputTokens := 0, outputTokens := 0, cost := 0, model := modelName,
                      timestamp := timestamp, latencyMs := latencyMs, agentName := agentName } }
  | .success text usage =>
      let inTok := usagePromptTokens usage
      let outTok := usageCandidatesTokens usage
      let metadata : LLMInferenceMetadata :=
        { inputTokens := inTok, outputTokens := outTok, cost := calcCost inTok outTok,
          model := modelName, timestamp := timestamp, latencyMs := latencyMs,
          agentName := agentName }
      match extractJson text.toList with
      | none =>
          { ok := false, content := none,
            error := some { message := "No JSON in response", code := none },
            metadata := metadata }
      | some jsonChars =>
          match jsonParse jsonChars with
          | none =>
              { ok := false, content := none,
                error := some { message := "Invalid JSON in response", code := none },
                metadata := metadata }
          | some parsed =>
              match schema parsed with
              | none =>
                  { ok := false, content := none,
                    error := some { message := "Schema validation failed", code := none },
                    metadata := metadata }
              | some validated =>
                  { ok := true, content := some validated, error := none,
                    metadata := metadata }

/-! ## Recognition agent (`src/unnamed/part_020`, `RecognitionAgent`) -/

/-- Model of `RecognitionOutput`: the `letter` field of the recognition response. -/
structure RecognitionOutput where
  letter : List Char
deriving DecidableEq

/-- Model of `RecognitionOutputSchema.safeParse`: a JSON object whose `letter` field is
a string of length exactly 1 (`z.string().length(1)`); unknown extra fields
are stripped, nothing else about the character is constrained. -/
def recognitionSchema (j : JsonValue) : Option RecognitionOutput :=
  match j with
  | .obj fields =>
    match jsonLookup fields ['l', 'e', 't', 't', 'e', 'r'] with
    | some (.str s) => if s.length == 1 then some { letter := s } else none
    | _ => none
  | _ => none

/-- Model of `RecognitionAgent.run`: the source repeats the base-agent flow verbatim
(call, metadata, greedy JSON extraction, `JSON.parse`, schema validation,
uniform envelope) with `RecognitionOutputSchema` as the schema and
`generateWithImage` as the client call, so it is embedded as `baseAgentRun`
applied to `recognitionSchema`. -/
def recognitionAgentRun (calcCost : ℚ → ℚ → ℚ) (modelName timestamp : String)
    (latencyMs : ℚ) (outcome : ClientOutcome) : AgentResult RecognitionOutput :=
  baseAgentRun recognitionSchema calcCost modelName timestamp "recognition_agent"
    latencyMs outcome

/-! ## Ledger summation closed forms and the spec's reading of them -/

/-- Sum of the `cost` fields of the ledger entries that have one. -/
def ledgerCostSum (ledger : List (String × CostEntry)) : ℚ :=
  (ledger.filterMap (fun p => p.2.costField)).sum

/-- The ledger entries whose `cost` field is defined. -/
def ledgerEntriesWithCost (ledger : List (String × CostEntry)) : List CostEntry :=
  (ledger.map (fun p => p.2)).filter (fun e => e.costField.isSome)

/-- Sum of the (`?? 0`-defaulted) `inputTokens` fields over the entries whose
`cost` field is defined. -/
def ledgerInputTokensSum (ledger : List (String × CostEntry)) : ℚ :=
  ((ledgerEntriesWithCost ledger).map (fun e => e.inputTokensField.getD 0)).sum

/-- Sum of the (`?? 0`-defaulted) `outputTokens` fields over the entries whose
`cost` field is defined. -/
def ledgerOutputTokensSum (ledger : List (String × CostEntry)) : ℚ :=
  ((ledgerEntriesWithCost ledger).map (fun e => e.outputTokensField.getD 0)).sum

/-- The cost of one ledger entry as the specification's sentence "the sum of
the cost of every entry in the cost ledger" reads: a model-call record
contributes its `cost`, a streaming-estimate record its `estimatedCost`.
Stated from the spec's words, for comparison with the code's aggregation. -/
def specEntryCost : CostEntry → ℚ
  | .llm m => m.cost
  | .streaming m => m.estimatedCost

/-- Sum of the cost of every ledger entry, as the specification reads it. -/
def specLedgerCostSum (ledger : List (String × CostEntry)) : ℚ :=
  (ledger.map (fun p => specEntryCost p.2)).sum

/-! ## Frame predicate for the validation graph -/

/-- The identity, game-context and streaming fields of `t` agree with `s`. -/
def framePreserved (s t : GameSessionState) : Prop :=
  t.sessionId = s.sessionId ∧ t.createdAt = s.createdAt ∧ t.lineId = s.lineId ∧
  t.wordId = s.wordId ∧ t.expectedWord = s.expectedWord ∧ t.level = s.level ∧
  t.transcriptionEvents = s.transcriptionEvents ∧
  t.finalTranscription = s.finalTranscription ∧
  t.streamStartedAt = s.streamStartedAt ∧ t.streamEndedAt = s.streamEndedAt ∧
  t.durationMs = s.durationMs

/-! ## Concrete fixtures (used by witnesses and counterexamples) -/

/-- A model-call metadata record with cost 0.001 and 100→50 tokens. -/
def sampleMeta : LLMInferenceMetadata :=
  { inputTokens := 100, outputTokens := 50, cost := 1 / 1000,
    model := "gemini-3-flash-preview", timestamp := "2026-01-01T00:00:00.000Z",
    latencyMs := 250, agentName := "validation_feedback_agent" }

/-- A validation output reporting an exact match. -/
def sampleValidation : ValidationOutput :=
  { isValid := true, matchPercentage := 100, letterByLetterMatch := none,
    reasoning := "exact match" }

/-- A feedback output. -/
def sampleFeedback : FeedbackOutput :=
  { feedback := "Great signing", suggestions := ["Keep your palm steady"],
    encouragement := "Steady lah", nextChallenge := none }

/-- A successful consolidated validation+feedback agent result. -/
def sampleVfrOk : AgentResult ValidationFeedbackContent :=
  { ok := true,
    content := some { validation := sampleValidation, feedback := sampleFeedback },
    error := none, metadata := sampleMeta }

/-- A streaming-estimate ledger record with estimated cost 0.0001 (the record
the client merges into the ledger before the graph runs; compare
`src/scripts/test-pipeline.ts`). -/
def sampleStreaming : StreamingCostMetadata :=
  { model := "gemini-2.0-flash-exp", sessionDurationMs := 5000,
    estimatedInputTokens := 1290, estimatedOutputTokens := 10,
    estimatedCost := 1 / 10000, frameCount := 5, transcriptionCount := 5 }

/-- A session ready for validation, its ledger already holding the
streaming-estimate record. -/
def sampleState : GameSessionState :=
  { sessionId := "s1", createdAt := "2026-01-01T00:00:00.000Z",
    lineId := "north-south", wordId := "ns-hello", expectedWord := "HELLO",
    level := 1, status := .recognizing, transcriptionEvents := [],
    finalTranscription := some "H E L L O", streamStartedAt := none,
    streamEndedAt := none, durationMs := 5000, validationResult := none,
    scoringResult := none, feedbackResult := none, score := none,
    costTracking := [("live_stream_0", .streaming sampleStreaming)],
    totalCost := 0, totalInputTokens := 0, totalOutputTokens := 0,
    error := none, outputDir := none }

/-- The state `sampleState` with a missing final transcription. -/
def sampleStateNoTranscription : GameSessionState :=
  { sampleState with finalTranscription := none }

/-- A successful validation agent result (3-agent variant). -/
def sampleVr : AgentResult ValidationOutput :=
  { ok := true, content := some sampleValidation, error := none,
    metadata := { sampleMeta with agentName := "validation_agent" } }

/-- A failed scoring agent result (3-agent variant). -/
def sampleSrFailed : AgentResult ScoringOutput :=
  { ok := false, content := none,
    error := some { message := "Schema validation failed", code := none },
    metadata := { sampleMeta with agentName := "scoring_agent" } }

/-- A successful feedback agent result (3-agent variant). -/
def sampleFr : AgentResult FeedbackOutput :=
  { ok := true, content := some sampleFeedback, error := none,
    metadata := { sampleMeta with agentName := "feedback_agent" } }

/-! # Theorems -/

/-! ## Helper lemmas -/

/-- A character the `[a-z]` filter keeps is left unchanged by lowercasing. -/
theorem jsToLower_fixed {c : Char} (h : isAsciiLowerAlpha c = true) : jsToLower c = c := by
  simp only [isAsciiLowerAlpha, decide_eq_true_eq] at h
  unfold jsToLower
  rw [if_neg]
  omega

/-- Folding the aggregation step from any accumulator adds the closed-form
ledger sums componentwise. -/
theorem foldl_aggregateStep (l : List (String × CostEntry)) (a b c : ℚ) :
    l.foldl aggregateStep (a, b, c)
      = (a + ledgerCostSum l, b + ledgerInputTokensSum l, c + ledgerOutputTokensSum l) := by
  induction l generalizing a b c with
  | nil =>
      simp [ledgerCostSum, ledgerInputTokensSum, ledgerOutputTokensSum, ledgerEntriesWithCost]
  | cons p rest ih =>
      rcases hcf : p.2.costField with _ | cost
      · have hstep : aggregateStep (a, b, c) p = (a, b, c) := by
          simp [aggregateStep, hcf]
        simp only [List.foldl_cons, hstep, ih]
        simp [ledgerCostSum, ledgerInputTokensSum, ledgerOutputTokensSum,
          ledgerEntriesWithCost, List.filterMap_cons, hcf]
      · have hstep : aggregateStep (a, b, c) p
            = (a + cost, b + p.2.inputTokensField.getD 0, c + p.2.outputTokensField.getD 0) := by
          simp [aggregateStep, hcf]
        simp only [List.foldl_cons, hstep, ih]
        simp only [ledgerCostSum, ledgerInputTokensSum, ledgerOutputTokensSum,
          ledgerEntriesWithCost, List.filterMap_cons, hcf, List.map_cons, List.filter_cons,
          Option.isSome_some, List.sum_cons, Prod.ext_iff]
        refine ⟨by ring, by simp [hcf]; ring, by simp [hcf]; ring⟩

/-- The function `aggregateCosts` only rewrites the three totals, setting each to the
corresponding closed-form sum over the ledger. -/
theorem aggregateCosts_spec (s : GameSessionState) :
    aggregateCosts s = { s with
      totalCost := ledgerCostSum s.costTracking
      totalInputTokens := ledgerInputTokensSum s.costTracking
      totalOutputTokens := ledgerOutputTokensSum s.costTracking } := by
  unfold aggregateCosts
  rw [foldl_aggregateStep]
  simp

/-! ## C9 — the normalizer -/

/-- C9: `normalizePracticeWord` lowercases and keeps only `[a-z]`; it is
idempotent, and `"Tai Seng"` and `"  TAI-SENG!! "` both normalize to
`"taiseng"`. -/
theorem normalize_idempotent_and_examples :
    (∀ x : String, normalizePracticeWord (normalizePracticeWord x) = normalizePracticeWord x) ∧
    normalizePracticeWord "Tai Seng" = "taiseng" ∧
    normalizePracticeWord "  TAI-SENG!! " = "taiseng" ∧
    normalizePracticeWord "Tai Seng" = normalizePracticeWord "  TAI-SENG!! " := by
  refine ⟨fun x => ?_, by decide, by decide, by decide⟩
  unfold normalizePracticeWord
  congr 1
  show (((x.toList.map jsToLower).filter isAsciiLowerAlpha).map jsToLower).filter
      isAsciiLowerAlpha = (x.toList.map jsToLower).filter isAsciiLowerAlpha
  have hall : ∀ c ∈ (x.toList.map jsToLower).filter isAsciiLowerAlpha,
      isAsciiLowerAlpha c = true := fun c hc => List.of_mem_filter hc
  have hmap : ((x.toList.map jsToLower).filter isAsciiLowerAlpha).map jsToLower
      = (x.toList.map jsToLower).filter isAsciiLowerAlpha := by
    rw [List.map_congr_left (fun c hc => jsToLower_fixed (hall c hc))]
    exact List.map_id _
  rw [hmap, List.filter_eq_self.mpr hall]

/-! ## C3 — announcement scenario classification -/

/-- C3: `getScenario` is total on (transcription, matchPercentage); it returns
`crash` exactly when the transcription contains the `?` marker or the match is
below 30, otherwise `safe` exactly when the match is at least 100, otherwise
`delayed`; with no marker, 100 is safe, 29 is crash, 30 is not crash, and
exactly one scenario is returned. -/
theorem getScenario_classification (t : String) (mp : ℚ) :
    (getScenario t mp = .crash ↔ (t.toList.contains '?' = true ∨ mp < 30)) ∧
    (¬ t.toList.contains '?' = true → ¬ mp < 30 →
      (getScenario t mp = .safe ↔ 100 ≤ mp)) ∧
    (¬ t.toList.contains '?' = true → ¬ mp < 30 → ¬ 100 ≤ mp →
      getScenario t mp = .delayed) ∧
    (¬ t.toList.contains '?' = true →
      getScenario t 100 = .safe ∧ getScenario t 29 = .crash ∧ getScenario t 30 ≠ .crash) ∧
    (getScenario t mp = .crash ∨ getScenario t mp = .delayed ∨ getScenario t mp = .safe) := by
  unfold getScenario
  refine ⟨?_, ?_, ?_, ?_, ?_⟩
  · split_ifs with h1 h2 <;> simp_all
  · intro hq hlt
    rw [if_neg (by tauto)]
    split_ifs with h <;> simp_all [ge_iff_le]
  · intro hq hlt hge
    rw [if_neg (by tauto), if_neg (by simpa [ge_iff_le] using hge)]
  · intro hq
    have hq2 : '?' ∉ t.data := by simpa using hq
    refine ⟨?_, ?_, ?_⟩
    · rw [if_neg (by simp [hq2]; norm_num), if_pos (by norm_num)]
    · rw [if_pos (by norm_num)]
    · rw [if_neg (by simp [hq2])]
      split_ifs <;> simp
  · split_ifs <;> simp

/-- Witness for C3 at concrete inputs. -/
theorem getScenario_classification_witness :
    getScenario "helo" 29 = .crash ∧ getScenario "helo" 100 = .safe ∧
    getScenario "helo" 30 ≠ .crash ∧ getScenario "helo" 55 = .delayed := by
  have h29 := getScenario_classification "helo" 29
  have h55 := getScenario_classification "helo" 55
  have hq : ¬ ("helo".toList.contains '?' = true) := by decide
  refine ⟨h29.1.mpr (Or.inr (by norm_num)), (h29.2.2.2.1 hq).1,
    (h29.2.2.2.1 hq).2.2, h55.2.2.1 hq (by norm_num) (by norm_num)⟩

/-! ## C1 — deterministic scoring -/

/-- C1: the consolidated graph's deterministic scoring computes
accuracy = round(matchPercentage); speed = 100 below 2s, 80 from 2s, 60 from
5s and 40 from 10s on (independently of the match); clarity =
min(100, max(30, round(matchPercentage·0.8 + 20))); score =
round(0.6·accuracy + 0.2·speed + 0.2·clarity); and a perfect match in 1.5s
scores exactly 100. -/
theorem computeDeterministicScore_spec (v : ValidationOutput) (d : ℚ)
    (h0 : 0 ≤ v.matchPercentage) (h1 : v.matchPercentage ≤ 100) (hd : 0 ≤ d) :
    (computeDeterministicScore v d).breakdown.accuracy = (jsRound v.matchPercentage : ℚ) ∧
    (d < 2000 → (computeDeterministicScore v d).breakdown.speed = 100) ∧
    (2000 ≤ d → d < 5000 → (computeDeterministicScore v d).breakdown.speed = 80) ∧
    (5000 ≤ d → d < 10000 → (computeDeterministicScore v d).breakdown.speed = 60) ∧
    (10000 ≤ d → (computeDeterministicScore v d).breakdown.speed = 40) ∧
    (computeDeterministicScore v d).breakdown.clarity
      = min 100 (max 30 ((jsRound (v.matchPercentage * (8 / 10) + 20) : ℚ))) ∧
    (computeDeterministicScore v d).score
      = (jsRound ((6 / 10) * (computeDeterministicScore v d).breakdown.accuracy
          + (2 / 10) * (computeDeterministicScore v d).breakdown.speed
          + (2 / 10) * (computeDeterministicScore v d).breakdown.clarity) : ℚ) ∧
    (computeDeterministicScore { v with matchPercentage := 100 } 1500).score = 100 := by
  refine ⟨rfl, ?_, ?_, ?_, ?_, rfl, ?_, ?_⟩
  · intro h
    simp only [computeDeterministicScore, ge_iff_le]
    rw [if_neg (by intro hc; linarith), if_neg (by intro hc; linarith),
      if_neg (by intro hc; linarith)]
  · intro h2 h5
    simp only [computeDeterministicScore, ge_iff_le]
    rw [if_neg (by intro hc; linarith), if_neg (by intro hc; linarith),
      if_pos (by linarith)]
  · intro h5 h10
    simp only [computeDeterministicScore, ge_iff_le]
    rw [if_neg (by intro hc; linarith), if_pos (by linarith)]
  · intro h10
    simp only [computeDeterministicScore, ge_iff_le]
    rw [if_pos (by linarith)]
  · simp only [computeDeterministicScore]
    congr 1
    ring
  · have hacc : jsRound (100 : ℚ) = 100 := by unfold jsRound; norm_num [Int.floor_eq_iff]
    have hclar : jsRound ((100 : ℚ) * (8 / 10) + 20) = 100 := by
      unfold jsRound; norm_num [Int.floor_eq_iff]
    simp only [computeDeterministicScore, ge_iff_le]
    rw [if_neg (by norm_num), if_neg (by norm_num), if_neg (by norm_num), hacc, hclar]
    norm_num
    unfold jsRound
    norm_num [Int.floor_eq_iff]

/-- Witness for C1 at matchPercentage 100 and duration 1500 ms. -/
theorem computeDeterministicScore_spec_witness :
    (computeDeterministicScore
      { isValid := true, matchPercentage := 100, letterByLetterMatch := none,
        reasoning := "" } 1500).score = 100 := by
  have h := computeDeterministicScore_spec
    { isValid := true, matchPercentage := 100, letterByLetterMatch := none, reasoning := "" }
    1500 (by norm_num) (by norm_num) (by norm_num)
  simpa using h.2.2.2.2.2.2.2

/-! ## C4 — missing-transcription guard -/

/-- C4: when the final transcription is `null` or empty, both variants of
`ValidationGraph.run` return the input state with only status set to `error`
and the fixed error message — the cost ledger and totals are untouched and
the result does not depend on any agent outcome (no agent is consulted). -/
theorem validationGraph_no_transcription_guard (state : GameSessionState)
    (h : state.finalTranscription = none ∨ state.finalTranscription = some "") :
    (∀ vfr : AgentResult ValidationFeedbackContent,
      runConsolidated state vfr
        = { state with error := some "No transcription to validate", status := .error }) ∧
    (∀ (vr : AgentResult ValidationOutput) (sr : AgentResult ScoringOutput)
        (fr : AgentResult FeedbackOutput),
      runThreeAgent state vr sr fr
        = { state with error := some "No transcription to validate", status := .error }) ∧
    (∀ vfr, (runConsolidated state vfr).status = .error ∧
      (runConsolidated state vfr).error = some "No transcription to validate" ∧
      (runConsolidated state vfr).costTracking = state.costTracking ∧
      (runConsolidated state vfr).totalCost = state.totalCost ∧
      (runConsolidated state vfr).totalInputTokens = state.totalInputTokens ∧
      (runConsolidated state vfr).totalOutputTokens = state.totalOutputTokens) := by
  have hg : guardEmptyTranscription state.finalTranscription = true := by
    rcases h with h | h <;> simp [guardEmptyTranscription, h]
  have hcons : ∀ vfr : AgentResult ValidationFeedbackContent,
      runConsolidated state vfr
        = { state with error := some "No transcription to validate", status := .error } := by
    intro vfr
    unfold runConsolidated
    rw [if_pos hg]
  refine ⟨hcons, ?_, ?_⟩
  · intro vr sr fr
    unfold runThreeAgent
    rw [if_pos hg]
  · intro vfr
    rw [hcons vfr]
    exact ⟨rfl, rfl, rfl, rfl, rfl, rfl⟩

/-- Witness for C4 on a concrete session with `finalTranscription = null`. -/
theorem validationGraph_no_transcription_guard_witness :
    runConsolidated sampleStateNoTranscription sampleVfrOk
      = { sampleStateNoTranscription with
          error := some "No transcription to validate", status := .error } ∧
    (runConsolidated sampleStateNoTranscription sampleVfrOk).costTracking
      = sampleStateNoTranscription.costTracking := by
  have h := validationGraph_no_transcription_guard sampleStateNoTranscription
    (Or.inl rfl)
  exact ⟨h.1 sampleVfrOk, (h.2.2 sampleVfrOk).2.2.1⟩

/-! ## C10 — frame property of the validation graph -/

/-- C10: both variants of `ValidationGraph.run` leave the identity,
game-context and streaming fields of the session unchanged — `sessionId`,
`createdAt`, `lineId`, `wordId`, `expectedWord`, `level`,
`transcriptionEvents`, `finalTranscription`, `streamStartedAt`,
`streamEndedAt` and `durationMs` all keep their input values. -/
theorem validationGraph_frame (state : GameSessionState)
    (vfr : AgentResult ValidationFeedbackContent) (vr : AgentResult ValidationOutput)
    (sr : AgentResult ScoringOutput) (fr : AgentResult FeedbackOutput) :
    framePreserved state (runConsolidated state vfr) ∧
    framePreserved state (runThreeAgent state vr sr fr) := by
  constructor
  · obtain ⟨ok, content, err, meta⟩ := vfr
    unfold runConsolidated
    split
    · simp [framePreserved]
    · cases ok <;> cases content <;>
        simp [framePreserved, aggregateCosts]
  · obtain ⟨ok, content, err, meta⟩ := vr
    unfold runThreeAgent
    split
    · simp [framePreserved]
    · cases ok <;> cases content <;>
        obtain ⟨sok, scontent, serr, smeta⟩ := sr <;>
        cases sok <;> cases scontent <;>
        obtain ⟨fok, fcontent, ferr, fmeta⟩ := fr <;>
        cases fok <;> cases fcontent <;>
        simp [framePreserved, aggregateCosts]

/-! ## C2 — cost totals are resummed from the ledger -/

/-- C2 (amended): after any run of either validation-graph variant that ends
`complete`, the three totals are recomputed by resumming the whole final
ledger — `totalCost` is the sum of the `cost` field of every entry that has
one, and the token totals sum those same entries' (`?? 0`-defaulted) token
fields.  Entries without a `cost` field (streaming-estimate records) are
skipped by the resummation. -/
theorem validationGraph_cost_resummation (state : GameSessionState)
    (vfr : AgentResult ValidationFeedbackContent) (vr : AgentResult ValidationOutput)
    (sr : AgentResult ScoringOutput) (fr : AgentResult FeedbackOutput) :
    ((runConsolidated state vfr).status = .complete →
      (runConsolidated state vfr).totalCost
        = ledgerCostSum (runConsolidated state vfr).costTracking ∧
      (runConsolidated state vfr).totalInputTokens
        = ledgerInputTokensSum (runConsolidated state vfr).costTracking ∧
      (runConsolidated state vfr).totalOutputTokens
        = ledgerOutputTokensSum (runConsolidated state vfr).costTracking) ∧
    ((runThreeAgent state vr sr fr).status = .complete →
      (runThreeAgent state vr sr fr).totalCost
        = ledgerCostSum (runThreeAgent state vr sr fr).costTracking ∧
      (runThreeAgent state vr sr fr).totalInputTokens
        = ledgerInputTokensSum (runThreeAgent state vr sr fr).costTracking ∧
      (runThreeAgent state vr sr fr).totalOutputTokens
        = ledgerOutputTokensSum (runThreeAgent state vr sr fr).costTracking) := by
  constructor
  · obtain ⟨ok, content, err, meta⟩ := vfr
    unfold runConsolidated
    split
    · intro hc
      simp at hc
    · cases ok <;> cases content <;> intro hc <;>
        first
          | (dsimp only; rw [aggregateCosts_spec]; exact ⟨rfl, rfl, rfl⟩)
          | simp at hc
  · obtain ⟨ok, content, err, meta⟩ := vr
    unfold runThreeAgent
    split
    · intro hc
      simp at hc
    · cases ok <;> cases content <;>
        obtain ⟨sok, scontent, serr, smeta⟩ := sr <;>
        cases sok <;> cases scontent <;>
        obtain ⟨fok, fcontent, ferr, fmeta⟩ := fr <;>
        cases fok <;> cases fcontent <;> intro hc <;>
        first
          | (dsimp only; rw [aggregateCosts_spec]; exact ⟨rfl, rfl, rfl⟩)
          | simp at hc

/-- Witness for C2 (amended) on a concrete successful run whose input ledger
already holds a streaming-estimate record. -/
theorem validationGraph_cost_resummation_witness :
    (runConsolidated sampleState sampleVfrOk).totalCost
      = ledgerCostSum (runConsolidated sampleState sampleVfrOk).costTracking := by
  have h := validationGraph_cost_resummation sampleState sampleVfrOk sampleVr
    sampleSrFailed sampleFr
  refine (h.1 ?_).1
  simp [runConsolidated, sampleState, sampleVfrOk, guardEmptyTranscription,
    recordSet, aggregateCosts]

/-- Counterexample for C2 as stated: on the same concrete successful run, the
recomputed `totalCost` is not the sum of the cost of every ledger entry —
the streaming-estimate record's 0.0001 is skipped because it stores its cost
under `estimatedCost`, leaving `totalCost` at the agent's 0.001 alone. -/
theorem validationGraph_cost_excludes_streaming :
    (runConsolidated sampleState sampleVfrOk).status = .complete ∧
    (runConsolidated sampleState sampleVfrOk).totalCost = 1 / 1000 ∧
    specLedgerCostSum (runConsolidated sampleState sampleVfrOk).costTracking = 11 / 10000 ∧
    (runConsolidated sampleState sampleVfrOk).totalCost
      ≠ specLedgerCostSum (runConsolidated sampleState sampleVfrOk).costTracking := by
  have hrun : runConsolidated sampleState sampleVfrOk
      = aggregateCosts { sampleState with
          status := .complete
          costTracking := sampleState.costTracking
            ++ [("validation_feedback_0", .llm sampleMeta)]
          validationResult := some sampleValidation
          feedbackResult := some sampleFeedback
          scoringResult := some (computeDeterministicScore sampleValidation 5000)
          score := some (computeDeterministicScore sampleValidation 5000).score } := by
    simp [runConsolidated, sampleState, sampleVfrOk, guardEmptyTranscription, recordSet]
  rw [hrun, aggregateCosts_spec]
  refine ⟨rfl, ?_, ?_, ?_⟩ <;>
    simp [ledgerCostSum, specLedgerCostSum, specEntryCost, sampleState, sampleStreaming,
      sampleMeta, CostEntry.costField] <;>
    norm_num

/-! ## C7 — provenance of the score field -/

/-- C7: starting from a session whose `score` is null, both variants set
`score` only on the path that ends `complete`, and the value always comes
from the stored results: the scoring result's composite score, or — in the
3-agent variant when the scoring agent failed — the validation result's raw
match percentage. -/
theorem validationGraph_score_provenance (state : GameSessionState)
    (vfr : AgentResult ValidationFeedbackContent) (vr : AgentResult ValidationOutput)
    (sr : AgentResult ScoringOutput) (fr : AgentResult FeedbackOutput)
    (h : state.score = none) :
    ((runConsolidated state vfr).score ≠ none →
      (runConsolidated state vfr).status = .complete) ∧
    (∀ x, (runConsolidated state vfr).score = some x →
      ∃ so, (runConsolidated state vfr).scoringResult = some so ∧ x = so.score) ∧
    ((runThreeAgent state vr sr fr).score ≠ none →
      (runThreeAgent state vr sr fr).status = .complete) ∧
    (∀ x, (runThreeAgent state vr sr fr).score = some x →
      (∃ so, (runThreeAgent state vr sr fr).scoringResult = some so ∧ x = so.score) ∨
      (¬ (sr.ok = true ∧ sr.content.isSome = true) ∧
        ∃ vo, (runThreeAgent state vr sr fr).validationResult = some vo ∧
          x = vo.matchPercentage)) := by
  refine ⟨?_, ?_, ?_, ?_⟩
  · obtain ⟨ok, content, err, meta⟩ := vfr
    unfold runConsolidated
    split
    · simp [h]
    · cases ok <;> cases content <;> simp [h, aggregateCosts]
  · obtain ⟨ok, content, err, meta⟩ := vfr
    unfold runConsolidated
    split
    · simp [h]
    · cases ok <;> cases content <;> simp [h, aggregateCosts]
  · obtain ⟨ok, content, err, meta⟩ := vr
    unfold runThreeAgent
    split
    · simp [h]
    · cases ok <;> cases content <;>
        obtain ⟨sok, scontent, serr, smeta⟩ := sr <;>
        cases sok <;> cases scontent <;>
        obtain ⟨fok, fcontent, ferr, fmeta⟩ := fr <;>
        cases fok <;> cases fcontent <;>
        simp [h, aggregateCosts]
  · obtain ⟨ok, content, err, meta⟩ := vr
    unfold runThreeAgent
    split
    · simp [h]
    · cases ok <;> cases content <;>
        obtain ⟨sok, scontent, serr, smeta⟩ := sr <;>
        cases sok <;> cases scontent <;>
        obtain ⟨fok, fcontent, ferr, fmeta⟩ := fr <;>
        cases fok <;> cases fcontent <;>
        simp [h, aggregateCosts]

/-- Witness for C7 on a concrete run: the 3-agent variant with a failed
scoring agent completes and falls back to the validation match percentage. -/
theorem validationGraph_score_provenance_witness :
    (runThreeAgent sampleState sampleVr sampleSrFailed sampleFr).score = some 100 ∧
    (runThreeAgent sampleState sampleVr sampleSrFailed sampleFr).status = .complete ∧
    ((∃ so, (runThreeAgent sampleState sampleVr sampleSrFailed sampleFr).scoringResult
          = some so ∧ (100 : ℚ) = so.score) ∨
      (¬ (sampleSrFailed.ok = true ∧ sampleSrFailed.content.isSome = true) ∧
        ∃ vo, (runThreeAgent sampleState sampleVr sampleSrFailed sampleFr).validationResult
            = some vo ∧ (100 : ℚ) = vo.matchPercentage)) := by
  have h := validationGraph_score_provenance sampleState sampleVfrOk sampleVr
    sampleSrFailed sampleFr rfl
  have hscore : (runThreeAgent sampleState sampleVr sampleSrFailed sampleFr).score
      = some 100 := by
    simp [runThreeAgent, sampleState, sampleVr, sampleSrFailed, sampleFr,
      guardEmptyTranscription, recordSet, aggregateCosts, sampleValidation]
  exact ⟨hscore, h.2.2.1 (by simp [hscore]), h.2.2.2 100 hscore⟩

/-! ## C6 — JSON extraction from noisy model text -/

/-- Dropping while a predicate holds skips a prefix on which it always holds. -/
theorem dropWhile_append_of_all {p : Char → Bool} {l1 l2 : List Char}
    (h : ∀ a ∈ l1, p a = true) : (l1 ++ l2).dropWhile p = l2.dropWhile p := by
  induction l1 with
  | nil => rfl
  | cons x xs ih =>
      rw [List.cons_append, List.dropWhile_cons, if_pos (h x (List.mem_cons_self x xs))]
      exact ih fun a ha => h a (List.mem_cons_of_mem x ha)

/-- Dropping while a predicate holds stops at the first failing element after
a prefix on which it always holds. -/
theorem dropWhile_append_stop {p : Char → Bool} {l1 l2 : List Char} {x : Char}
    (h : ∀ a ∈ l1, p a = true) (hx : p x = false) :
    (l1 ++ x :: l2).dropWhile p = x :: l2 := by
  rw [dropWhile_append_of_all h, List.dropWhile_cons, if_neg (by simp [hx])]

/-- When the preamble has no opening brace and the trailing text no closing
brace, the greedy regex span is exactly the embedded `{...}` block. -/
theorem extractJson_embedded (pre mid post : List Char)
    (hpre : lbrace ∉ pre) (hpost : rbrace ∉ post) :
    extractJson (pre ++ (lbrace :: mid ++ [rbrace]) ++ post)
      = some (lbrace :: mid ++ [rbrace]) := by
  have hallpre : ∀ a ∈ pre, (!(a == lbrace)) = true := by
    intro a ha
    simp only [Bool.not_eq_true', beq_eq_false_iff_ne, ne_eq]
    exact fun heq => hpre (heq ▸ ha)
  have hallpost : ∀ a ∈ post.reverse, (!(a == rbrace)) = true := by
    intro a ha
    simp only [Bool.not_eq_true', beq_eq_false_iff_ne, ne_eq]
    exact fun heq => hpost (heq ▸ (List.mem_reverse.mp ha))
  have hsplit : pre ++ (lbrace :: mid ++ [rbrace]) ++ post
      = pre ++ lbrace :: ((mid ++ [rbrace]) ++ post) := by simp
  simp only [extractJson]
  rw [hsplit, dropWhile_append_stop hallpre (by simp)]
  have hrev : (lbrace :: ((mid ++ [rbrace]) ++ post)).reverse
      = post.reverse ++ rbrace :: (mid.reverse ++ [lbrace]) := by simp
  rw [hrev, dropWhile_append_stop hallpost (by simp)]
  simp

/-- C6 (amended): the base agent's extraction takes the greedy span from the
first `{` to the last `}` of the raw text; whenever the raw response is
preamble ++ JSON-object ++ trailing prose where the preamble contains no `{`
and the trailing prose contains no `}`, the embedded object is extracted
exactly, and parsing it succeeds whenever the object is well-formed JSON. -/
theorem jsonExtraction_tolerant (pre mid post : List Char) (v : JsonValue)
    (hpre : lbrace ∉ pre) (hpost : rbrace ∉ post)
    (hparse : jsonParse (lbrace :: mid ++ [rbrace]) = some v) :
    extractJson (pre ++ (lbrace :: mid ++ [rbrace]) ++ post)
      = some (lbrace :: mid ++ [rbrace]) ∧
    ((extractJson (pre ++ (lbrace :: mid ++ [rbrace]) ++ post)).bind jsonParse)
      = some v := by
  have he := extractJson_embedded pre mid post hpre hpost
  exact ⟨he, by rw [he]; exact hparse⟩

/-- Witness for C6 (amended) on the spec's own example, a JSON object wrapped
in prose: `"Sure! {"isValid":true} Hope that helps!"`. -/
theorem jsonExtraction_tolerant_witness :
    extractJson (String.toList "Sure! "
        ++ (lbrace :: String.toList "\x22isValid\x22:true" ++ [rbrace])
        ++ String.toList " Hope that helps!")
      = some (lbrace :: String.toList "\x22isValid\x22:true" ++ [rbrace]) ∧
    ((extractJson (String.toList "Sure! "
        ++ (lbrace :: String.toList "\x22isValid\x22:true" ++ [rbrace])
        ++ String.toList " Hope that helps!")).bind jsonParse)
      = some (.obj [(String.toList "isValid", .bool true)]) :=
  jsonExtraction_tolerant (String.toList "Sure! ") (String.toList "\x22isValid\x22:true")
    (String.toList " Hope that helps!") (.obj [(String.toList "isValid", .bool true)])
    (by decide) (by decide) (by rfl)

/-- Counterexample for C6 as stated: the trailing prose `" Hope {that}
helps!"` contains braces, so the greedy span from the first `{` to the last
`}` overshoots the embedded object and `JSON.parse` fails, even though the raw
text is exactly prose ++ well-formed-object ++ prose. -/
theorem jsonExtraction_greedy_counterexample :
    String.toList "Sure! \x7b\x22isValid\x22:true\x7d Hope \x7bthat\x7d helps!"
      = String.toList "Sure! " ++ String.toList "\x7b\x22isValid\x22:true\x7d"
        ++ String.toList " Hope \x7bthat\x7d helps!" ∧
    jsonParse (String.toList "\x7b\x22isValid\x22:true\x7d")
      = some (.obj [(String.toList "isValid", .bool true)]) ∧
    ((extractJson (String.toList
        "Sure! \x7b\x22isValid\x22:true\x7d Hope \x7bthat\x7d helps!")).bind jsonParse)
      = none :=
  ⟨by rfl, by rfl, by rfl⟩

/-! ## C5 — the base agent's failure envelope -/

/-- C5: `BaseAgent.run` always returns the uniform envelope — `ok` holds
exactly when content is present, failures carry an error; a thrown client
exception yields `ok:false` with all-zero cost metadata; a completed call
whose JSON extraction, parse or schema validation fails yields `ok:false`
with an error and with token counts and cost taken from the call's actual
usage. -/
theorem baseAgentRun_envelope {α : Type} (schema : JsonValue → Option α)
    (calcCost : ℚ → ℚ → ℚ) (modelName timestamp agentName : String) (latencyMs : ℚ)
    (outcome : ClientOutcome) :
    ((baseAgentRun schema calcCost modelName timestamp agentName latencyMs outcome).ok = true
      ↔ (baseAgentRun schema calcCost modelName timestamp agentName latencyMs
          outcome).content.isSome = true) ∧
    ((baseAgentRun schema calcCost modelName timestamp agentName latencyMs outcome).ok = false →
      (baseAgentRun schema calcCost modelName timestamp agentName latencyMs
        outcome).error.isSome = true) ∧
    (∀ msg, outcome = .thrown msg →
      (baseAgentRun schema calcCost modelName timestamp agentName latencyMs outcome).ok
          = false ∧
      (baseAgentRun schema calcCost modelName timestamp agentName latencyMs
          outcome).metadata.inputTokens = 0 ∧
      (baseAgentRun schema calcCost modelName timestamp agentName latencyMs
          outcome).metadata.outputTokens = 0 ∧
      (baseAgentRun schema calcCost modelName timestamp agentName latencyMs
          outcome).metadata.cost = 0 ∧
      (baseAgentRun schema calcCost modelName timestamp agentName latencyMs
          outcome).error = some { message := msg, code := none }) ∧
    (∀ text usage, outcome = .success text usage →
      (baseAgentRun schema calcCost modelName timestamp agentName latencyMs outcome).ok
          = false →
      (baseAgentRun schema calcCost modelName timestamp agentName latencyMs
          outcome).metadata.inputTokens = usagePromptTokens usage ∧
      (baseAgentRun schema calcCost modelName timestamp agentName latencyMs
          outcome).metadata.outputTokens = usageCandidatesTokens usage ∧
      (baseAgentRun schema calcCost modelName timestamp agentName latencyMs
          outcome).metadata.cost
        = calcCost (usagePromptTokens usage) (usageCandidatesTokens usage) ∧
      (baseAgentRun schema calcCost modelName timestamp agentName latencyMs
          outcome).error.isSome = true) := by
  cases outcome with
  | thrown msg =>
      refine ⟨by simp [baseAgentRun], by simp [baseAgentRun], ?_, ?_⟩
      · intro m hm
        injection hm with h1
        subst h1
        refine ⟨rfl, rfl, rfl, rfl, rfl⟩
      · intro t u hs
        simp at hs
  | success text usage =>
      rcases hE : extractJson text.data with _ | jsonChars
      · refine ⟨by simp [baseAgentRun, hE], by simp [baseAgentRun, hE], ?_, ?_⟩
        · intro m hm
          simp at hm
        · intro t u hs _
          injection hs with h1 h2
          subst h1
          subst h2
          exact ⟨by simp [baseAgentRun, hE], by simp [baseAgentRun, hE],
            by simp [baseAgentRun, hE], by simp [baseAgentRun, hE]⟩
      · rcases hP : jsonParse jsonChars with _ | parsed
        · refine ⟨by simp [baseAgentRun, hE, hP], by simp [baseAgentRun, hE, hP], ?_, ?_⟩
          · intro m hm
            simp at hm
          · intro t u hs _
            injection hs with h1 h2
            subst h1
            subst h2
            exact ⟨by simp [baseAgentRun, hE, hP], by simp [baseAgentRun, hE, hP],
              by simp [baseAgentRun, hE, hP], by simp [baseAgentRun, hE, hP]⟩
        · rcases hS : schema parsed with _ | val
          · refine ⟨by simp [baseAgentRun, hE, hP, hS],
              by simp [baseAgentRun, hE, hP, hS], ?_, ?_⟩
            · intro m hm
              simp at hm
            · intro t u hs _
              injection hs with h1 h2
              subst h1
              subst h2
              exact ⟨by simp [baseAgentRun, hE, hP, hS], by simp [baseAgentRun, hE, hP, hS],
                by simp [baseAgentRun, hE, hP, hS], by simp [baseAgentRun, hE, hP, hS]⟩
          · refine ⟨by simp [baseAgentRun, hE, hP, hS],
              by simp [baseAgentRun, hE, hP, hS], ?_, ?_⟩
            · intro m hm
              simp at hm
            · intro t u hs hok
              rw [show (baseAgentRun schema calcCost modelName timestamp agentName latencyMs
                    (.success text usage)).ok = true by simp [baseAgentRun, hE, hP, hS]] at hok
              simp at hok

/-- Witness for C5: a thrown transport error yields the zero-cost failure
envelope, and a completed call with no JSON in its text yields a failure
envelope whose token counts come from the call's usage. -/
theorem baseAgentRun_envelope_witness :
    (baseAgentRun (fun j => some j) (fun a b => a + b) "gemini-3-flash-preview"
        "2026-01-01T00:00:00.000Z" "validation_agent" 5 (.thrown "Network error")).ok
      = false ∧
    (baseAgentRun (fun j => some j) (fun a b => a + b) "gemini-3-flash-preview"
        "2026-01-01T00:00:00.000Z" "validation_agent" 5 (.thrown "Network error")).metadata.cost
      = 0 ∧
    (baseAgentRun (fun j => some j) (fun a b => a + b) "gemini-3-flash-preview"
        "2026-01-01T00:00:00.000Z" "validation_agent" 5
        (.success "no json here" none)).metadata.inputTokens
      = usagePromptTokens none := by
  have h1 := baseAgentRun_envelope (fun j => some j) (fun a b => a + b)
    "gemini-3-flash-preview" "2026-01-01T00:00:00.000Z" "validation_agent" 5
    (.thrown "Network error")
  have h2 := baseAgentRun_envelope (fun j => some j) (fun a b => a + b)
    "gemini-3-flash-preview" "2026-01-01T00:00:00.000Z" "validation_agent" 5
    (.success "no json here" none)
  exact ⟨(h1.2.2.1 "Network error" rfl).1, (h1.2.2.1 "Network error" rfl).2.2.2.1,
    (h2.2.2.2 "no json here" none rfl (by rfl)).1⟩

/-! ## C8 — the recognition agent's letter field -/

/-- Anything accepted by the recognition schema has a one-character letter. -/
theorem recognitionSchema_letter {j : JsonValue} {out : RecognitionOutput}
    (h : recognitionSchema j = some out) : out.letter.length = 1 := by
  unfold recognitionSchema at h
  rcases j with _ | _ | _ | _ | _ | fields
  · simp at h
  · simp at h
  · simp at h
  · simp at h
  · simp at h
  · dsimp only at h
    rcases hl : jsonLookup fields ['l', 'e', 't', 't', 'e', 'r'] with _ | v
    · rw [hl] at h
      simp at h
    · rcases v with _ | _ | _ | s | _ | _ <;> rw [hl] at h <;> try simp at h
      obtain ⟨hlen, hout⟩ := h
      rw [← hout]
      exact hlen

/-- C8 (amended): whenever the recognition agent returns `ok:true`, the
returned `letter` is exactly one character — never empty, never
multi-character.  (The restriction to `A`–`Z` or `?` is prompt guidance; the
schema `z.string().length(1)` does not enforce it.) -/
theorem recognitionAgent_letter_single_char (calcCost : ℚ → ℚ → ℚ)
    (modelName timestamp : String) (latencyMs : ℚ) (outcome : ClientOutcome) :
    (recognitionAgentRun calcCost modelName timestamp latencyMs outcome).ok = true →
    ∃ out, (recognitionAgentRun calcCost modelName timestamp latencyMs outcome).content
        = some out ∧ out.letter.length = 1 := by
  unfold recognitionAgentRun
  cases outcome with
  | thrown msg => simp [baseAgentRun]
  | success text usage =>
      rcases hE : extractJson text.data with _ | jsonChars
      · simp [baseAgentRun, hE]
      · rcases hP : jsonParse jsonChars with _ | parsed
        · simp [baseAgentRun, hE, hP]
        · rcases hS : recognitionSchema parsed with _ | val
          · simp [baseAgentRun, hE, hP, hS]
          · intro _
            exact ⟨val, by simp [baseAgentRun, hE, hP, hS], recognitionSchema_letter hS⟩

/-- Witness for C8 (amended) on a concrete response `{"letter":"A"}`. -/
theorem recognitionAgent_letter_single_char_witness :
    ∃ out, (recognitionAgentRun (fun a b => 0) "gemini-2.0-flash-exp"
        "2026-01-01T00:00:00.000Z" 0
        (.success "\x7b\x22letter\x22:\x22A\x22\x7d" none)).content
      = some out ∧ out.letter.length = 1 :=
  recognitionAgent_letter_single_char (fun a b => 0) "gemini-2.0-flash-exp"
    "2026-01-01T00:00:00.000Z" 0 (.success "\x7b\x22letter\x22:\x22A\x22\x7d" none)
    (by rfl)

/-- Counterexample for C8 as stated: the model text `{"letter":"x"}` passes
the schema (length 1) and the agent returns `ok:true` with letter `x`, which
is neither an uppercase `A`–`Z` nor the `?` sentinel. -/
theorem recognitionAgent_letter_charset_counterexample :
    (recognitionAgentRun (fun a b => 0) "gemini-2.0-flash-exp"
        "2026-01-01T00:00:00.000Z" 0
        (.success "\x7b\x22letter\x22:\x22x\x22\x7d" none)).ok = true ∧
    (recognitionAgentRun (fun a b => 0) "gemini-2.0-flash-exp"
        "2026-01-01T00:00:00.000Z" 0
        (.success "\x7b\x22letter\x22:\x22x\x22\x7d" none)).content
      = some { letter := ['x'] } ∧
    ¬ (('A' ≤ 'x' ∧ 'x' ≤ 'Z') ∨ 'x' = '?') :=
  ⟨by rfl, by rfl, by decide⟩

end SignGame
